import Mathlib

/-!
Verification of the keylime rust agent (`src/main.rs`) against its
natural-language specification.

Strings are modelled as lists of bytes (`List Nat`, each `< 256`), matching
Rust's UTF-8 `&str`/`String` representation for the ASCII data this program
manipulates.  The UUID textual forms, base64, hex and HMAC-SHA384 are given
executable definitions faithful to the libraries the source calls
(`uuid::Uuid::parse_str` / `to_string` / `new_v4`, `base64::encode`,
`hex::encode`, OpenSSL HMAC with SHA-384), and `get_uuid` and the `main`
orchestration are embedded over them.
-/

namespace Keylime

/-- Bytes of an ASCII string literal. -/
def strBytes (s : String) : List Nat := s.data.map Char.toNat

/-- Lower-case hexadecimal digit for a nibble (`0`-`9`, `a`-`f`), as an ASCII byte. -/
def hexDigit (n : Nat) : Nat := if n < 10 then 48 + n else 87 + n

/-- Two lower-case hex digits of one byte. -/
def byteHex (b : Nat) : List Nat := [hexDigit (b / 16), hexDigit (b % 16)]

/-- Lower-case hex encoding of a byte string (`hex::encode`). -/
def hexEncode : List Nat → List Nat
  | [] => []
  | b :: r => hexDigit (b / 16) :: hexDigit (b % 16) :: hexEncode r

/-- ASCII lower-casing of one byte: `A`-`Z` map to `a`-`z`, all else unchanged. -/
def asciiLower (n : Nat) : Nat := if 65 ≤ n ∧ n ≤ 90 then n + 32 else n

/-- Value of a lower-case hexadecimal ASCII digit. -/
def hexValCore (n : Nat) : Option Nat :=
  if 48 ≤ n ∧ n ≤ 57 then some (n - 48)
  else if 97 ≤ n ∧ n ≤ 102 then some (n - 87)
  else none

/-- Value of a hexadecimal ASCII digit, case-insensitive, as in the uuid parser. -/
def hexVal (n : Nat) : Option Nat := hexValCore (asciiLower n)

/-- Case-insensitive equality of two byte strings (ASCII case folding). -/
def eqCaseInsensitive (s t : List Nat) : Prop :=
  s.map asciiLower = t.map asciiLower

instance (s t : List Nat) : Decidable (eqCaseInsensitive s t) := by
  unfold eqCaseInsensitive; infer_instance

/-- The sixteen raw bytes of a UUID (`uuid::Uuid`). -/
structure UuidBytes where
  b0 : Nat
  b1 : Nat
  b2 : Nat
  b3 : Nat
  b4 : Nat
  b5 : Nat
  b6 : Nat
  b7 : Nat
  b8 : Nat
  b9 : Nat
  b10 : Nat
  b11 : Nat
  b12 : Nat
  b13 : Nat
  b14 : Nat
  b15 : Nat
deriving DecidableEq, Repr

/-- All sixteen fields are bytes. -/
def ValidBytes (u : UuidBytes) : Prop :=
  u.b0 < 256 ∧ u.b1 < 256 ∧ u.b2 < 256 ∧ u.b3 < 256 ∧
  u.b4 < 256 ∧ u.b5 < 256 ∧ u.b6 < 256 ∧ u.b7 < 256 ∧
  u.b8 < 256 ∧ u.b9 < 256 ∧ u.b10 < 256 ∧ u.b11 < 256 ∧
  u.b12 < 256 ∧ u.b13 < 256 ∧ u.b14 < 256 ∧ u.b15 < 256

instance (u : UuidBytes) : Decidable (ValidBytes u) := by
  unfold ValidBytes; infer_instance

/-- Canonical hyphenated lower-case rendering (`uuid::Uuid::to_string`):
8-4-4-4-12 lower-case hex groups joined by `-` (byte 45). -/
def uuidToString (u : UuidBytes) : List Nat :=
  byteHex u.b0 ++ byteHex u.b1 ++ byteHex u.b2 ++ byteHex u.b3 ++ [45] ++
  byteHex u.b4 ++ byteHex u.b5 ++ [45] ++
  byteHex u.b6 ++ byteHex u.b7 ++ [45] ++
  byteHex u.b8 ++ byteHex u.b9 ++ [45] ++
  byteHex u.b10 ++ byteHex u.b11 ++ byteHex u.b12 ++ byteHex u.b13 ++
  byteHex u.b14 ++ byteHex u.b15

/-- Read `n` bytes, each as two hex digits (case-insensitive), returning the rest. -/
def readHexBytes : Nat → List Nat → Option (List Nat × List Nat)
  | 0, l => some ([], l)
  | n + 1, c1 :: c2 :: r =>
    (hexVal c1).bind fun hi =>
      (hexVal c2).bind fun lo =>
        (readHexBytes n r).map fun p => ((16 * hi + lo) :: p.1, p.2)
  | _ + 1, _ => none

/-- Consume a single hyphen byte. -/
def expectHyphen : List Nat → Option (List Nat)
  | c :: r => if c = 45 then some r else none
  | [] => none

/-- Assemble a `UuidBytes` from a list of exactly sixteen bytes. -/
def mkUuid : List Nat → Option UuidBytes
  | [a0, a1, a2, a3, a4, a5, a6, a7, a8, a9, a10, a11, a12, a13, a14, a15] =>
    some ⟨a0, a1, a2, a3, a4, a5, a6, a7, a8, a9, a10, a11, a12, a13, a14, a15⟩
  | _ => none

/-- Succeeds exactly on the empty rest, as the final length check. -/
def expectEnd : List Nat → Option Unit
  | [] => some ()
  | _ => none

/-- Parse the hyphenated textual form `xxxxxxxx-xxxx-xxxx-xxxx-xxxxxxxxxxxx`. -/
def parseHyphenated (l : List Nat) : Option UuidBytes :=
  (readHexBytes 4 l).bind fun p0 =>
  (expectHyphen p0.2).bind fun r0 =>
  (readHexBytes 2 r0).bind fun p1 =>
  (expectHyphen p1.2).bind fun r1 =>
  (readHexBytes 2 r1).bind fun p2 =>
  (expectHyphen p2.2).bind fun r2 =>
  (readHexBytes 2 r2).bind fun p3 =>
  (expectHyphen p3.2).bind fun r3 =>
  (readHexBytes 6 r3).bind fun p4 =>
  (expectEnd p4.2).bind fun _ =>
  mkUuid (p0.1 ++ p1.1 ++ p2.1 ++ p3.1 ++ p4.1)

/-- Parse the simple textual form: 32 hex digits, no hyphens. -/
def parseSimple (l : List Nat) : Option UuidBytes :=
  (readHexBytes 16 l).bind fun p =>
  (expectEnd p.2).bind fun _ =>
  mkUuid p.1

/-- `uuid::Uuid::parse_str`: accepts the URN form `urn:uuid:<hyphenated>`,
the hyphenated form, and the simple 32-digit form. -/
def parseUuid (l : List Nat) : Option UuidBytes :=
  if l.length = 45 ∧ l.take 9 = strBytes "urn:uuid:" then
    parseHyphenated (l.drop 9)
  else
    match parseHyphenated l with
    | some u => some u
    | none => parseSimple l

/-- `uuid::Uuid::new_v4` applied to sixteen random bytes: set the version
nibble of byte 6 to `4` (`(b & 0x0f) | 0x40`) and the variant bits of byte 8
to `10` (`(b & 0x3f) | 0x80`). -/
def uuidV4 (r : UuidBytes) : UuidBytes :=
  { r with b6 := 64 + r.b6 % 16, b8 := 128 + r.b8 % 64 }

/-- Embedding of `get_uuid` from `src/main.rs`, with the random bytes the
`generate`/fallback branches draw made an explicit argument. -/
def getUuid (cfg : List Nat) (rand : UuidBytes) : List Nat :=
  if cfg = strBytes "openstack" then strBytes "openstack"
  else if cfg = strBytes "hash_ek" then strBytes "hash_ek"
  else if cfg = strBytes "generate" then uuidToString (uuidV4 rand)
  else
    match parseUuid cfg with
    | some u => uuidToString u
    | none => uuidToString (uuidV4 rand)

/-- Character of a 6-bit group in the standard base64 alphabet, as an ASCII byte. -/
def b64Char (n : Nat) : Nat :=
  if n < 26 then 65 + n
  else if n < 52 then 71 + n
  else if n < 62 then n - 4
  else if n = 62 then 43
  else 47

/-- Standard base64 encoding with padding (`base64::encode`). -/
def base64Encode : List Nat → List Nat
  | [] => []
  | [c1] => [b64Char (c1 / 4), b64Char (c1 % 4 * 16), 61, 61]
  | [c1, c2] => [b64Char (c1 / 4), b64Char (c1 % 4 * 16 + c2 / 16), b64Char (c2 % 16 * 4), 61]
  | c1 :: c2 :: c3 :: r =>
    b64Char (c1 / 4) :: b64Char (c1 % 4 * 16 + c2 / 16) ::
    b64Char (c2 % 16 * 4 + c3 / 64) :: b64Char (c3 % 64) :: base64Encode r

/-- Right rotation of a 64-bit word. -/
def rotr (n x : Nat) : Nat := ((x >>> n) ||| (x <<< (64 - n))) % 2 ^ 64

/-- SHA-2 choice function `Ch(e,f,g)`. -/
def shaCh (e f g : Nat) : Nat := (e &&& f) ^^^ ((e ^^^ (2 ^ 64 - 1)) &&& g)

/-- SHA-2 majority function `Maj(a,b,c)`. -/
def shaMaj (a b c : Nat) : Nat := (a &&& b) ^^^ (a &&& c) ^^^ (b &&& c)

/-- SHA-512 `Σ₀`. -/
def bigSigma0 (x : Nat) : Nat := rotr 28 x ^^^ rotr 34 x ^^^ rotr 39 x

/-- SHA-512 `Σ₁`. -/
def bigSigma1 (x : Nat) : Nat := rotr 14 x ^^^ rotr 18 x ^^^ rotr 41 x

/-- SHA-512 `σ₀`. -/
def smallSigma0 (x : Nat) : Nat := rotr 1 x ^^^ rotr 8 x ^^^ (x >>> 7)

/-- SHA-512 `σ₁`. -/
def smallSigma1 (x : Nat) : Nat := rotr 19 x ^^^ rotr 61 x ^^^ (x >>> 6)

/-- The eighty SHA-512 round constants (FIPS 180-4 §4.2.3). -/
def K80 : List Nat := [
  4794697086780616226, 8158064640168781261, 13096744586834688815,
  16840607885511220156, 4131703408338449720, 6480981068601479193,
  10538285296894168987, 12329834152419229976, 15566598209576043074,
  1334009975649890238, 2608012711638119052, 6128411473006802146,
  8268148722764581231, 9286055187155687089, 11230858885718282805,
  13951009754708518548, 16472876342353939154, 17275323862435702243,
  1135362057144423861, 2597628984639134821, 3308224258029322869,
  5365058923640841347, 6679025012923562964, 8573033837759648693,
  10970295158949994411, 12119686244451234320, 12683024718118986047,
  13788192230050041572, 14330467153632333762, 15395433587784984357,
  489312712824947311, 1452737877330783856, 2861767655752347644,
  3322285676063803686, 5560940570517711597, 5996557281743188959,
  7280758554555802590, 8532644243296465576, 9350256976987008742,
  10552545826968843579, 11727347734174303076, 12113106623233404929,
  14000437183269869457, 14369950271660146224, 15101387698204529176,
  15463397548674623760, 17586052441742319658, 1182934255886127544,
  1847814050463011016, 2177327727835720531, 2830643537854262169,
  3796741975233480872, 4115178125766777443, 5681478168544905931,
  6601373596472566643, 7507060721942968483, 8399075790359081724,
  8693463985226723168, 9568029438360202098, 10144078919501101548,
  10430055236837252648, 11840083180663258601, 13761210420658862357,
  14299343276471374635, 14566680578165727644, 15097957966210449927,
  16922976911328602910, 17689382322260857208, 500013540394364858,
  748580250866718886, 1242879168328830382, 1977374033974150939,
  2944078676154940804, 3659926193048069267, 4368137639120453308,
  4836135668995329356, 5532061633213252278, 6448918945643986474,
  6902733635092675308, 7801388544844847127]

/-- The eight 64-bit words of a SHA-512 family hash state. -/
structure Sha512State where
  h0 : Nat
  h1 : Nat
  h2 : Nat
  h3 : Nat
  h4 : Nat
  h5 : Nat
  h6 : Nat
  h7 : Nat
deriving DecidableEq, Repr

/-- SHA-384 initial hash values (FIPS 180-4 §5.3.4). -/
def sha384IV : Sha512State :=
  ⟨14680500436340154072, 7105036623409894663, 10473403895298186519, 1526699215303891257,
   7436329637833083697, 10282925794625328401, 15784041429090275239, 5167115440072839076⟩

/-- Big-endian serialization of a number into exactly `k` bytes. -/
def natToBytesBE : Nat → Nat → List Nat
  | 0, _ => []
  | k + 1, n => natToBytesBE k (n / 256) ++ [n % 256]

/-- Group a byte string into big-endian 64-bit words (eight bytes per word). -/
def bytesToWords : List Nat → List Nat
  | b1 :: b2 :: b3 :: b4 :: b5 :: b6 :: b7 :: b8 :: r =>
    (((((((b1 * 256 + b2) * 256 + b3) * 256 + b4) * 256 + b5) * 256 + b6) * 256 + b7)
      * 256 + b8) :: bytesToWords r
  | _ => []

/-- SHA-384/512 padding: `0x80`, zeros, then the 128-bit big-endian bit length,
to a multiple of 128 bytes (FIPS 180-4 §5.1.2). -/
def padMessage (msg : List Nat) : List Nat :=
  msg ++ 128 :: List.replicate ((128 - (msg.length + 17) % 128) % 128) 0 ++
    natToBytesBE 16 (8 * msg.length)

/-- Split a byte string into 128-byte blocks; the fuel argument only bounds the
recursion depth and is in practice the length of the list. -/
def toBlocksFuel : Nat → List Nat → List (List Nat)
  | 0, _ => []
  | _ + 1, [] => []
  | n + 1, l => l.take 128 :: toBlocksFuel n (l.drop 128)

/-- Split a byte string into 128-byte blocks. -/
def toBlocks (l : List Nat) : List (List Nat) := toBlocksFuel l.length l

/-- Extend the sixteen message-schedule words of a block by `n` further words. -/
def extendW : Nat → List Nat → List Nat
  | 0, ws => ws
  | n + 1, ws =>
    extendW n (ws ++ [(smallSigma1 (ws.getD (ws.length - 2) 0) + ws.getD (ws.length - 7) 0 +
      smallSigma0 (ws.getD (ws.length - 15) 0) + ws.getD (ws.length - 16) 0) % 2 ^ 64])

/-- One SHA-512 round on the working variables `(a,…,h) = (h0,…,h7)`. -/
def roundStep (st : Sha512State) (kw : Nat × Nat) : Sha512State :=
  let t1 := (st.h7 + bigSigma1 st.h4 + shaCh st.h4 st.h5 st.h6 + kw.1 + kw.2) % 2 ^ 64
  let t2 := (bigSigma0 st.h0 + shaMaj st.h0 st.h1 st.h2) % 2 ^ 64
  ⟨(t1 + t2) % 2 ^ 64, st.h0, st.h1, st.h2, (st.h3 + t1) % 2 ^ 64, st.h4, st.h5, st.h6⟩

/-- SHA-512 compression of one 128-byte block into the hash state. -/
def compress (st : Sha512State) (block : List Nat) : Sha512State :=
  let w := extendW 64 (bytesToWords block)
  let f := (K80.zip w).foldl roundStep st
  ⟨(st.h0 + f.h0) % 2 ^ 64, (st.h1 + f.h1) % 2 ^ 64, (st.h2 + f.h2) % 2 ^ 64,
   (st.h3 + f.h3) % 2 ^ 64, (st.h4 + f.h4) % 2 ^ 64, (st.h5 + f.h5) % 2 ^ 64,
   (st.h6 + f.h6) % 2 ^ 64, (st.h7 + f.h7) % 2 ^ 64⟩

/-- Final SHA-384 hash state of a message. -/
def sha384Words (msg : List Nat) : Sha512State :=
  (toBlocks (padMessage msg)).foldl compress sha384IV

/-- SHA-384 digest of a byte string: the first six state words, 48 bytes. -/
def sha384 (msg : List Nat) : List Nat :=
  natToBytesBE 8 (sha384Words msg).h0 ++ natToBytesBE 8 (sha384Words msg).h1 ++
  natToBytesBE 8 (sha384Words msg).h2 ++ natToBytesBE 8 (sha384Words msg).h3 ++
  natToBytesBE 8 (sha384Words msg).h4 ++ natToBytesBE 8 (sha384Words msg).h5

/-- HMAC with SHA-384 (RFC 2104 / FIPS 198-1, block size 128 bytes), as OpenSSL
computes it for `PKey::hmac` + `Signer` with `MessageDigest::sha384`. -/
def hmacSha384 (key msg : List Nat) : List Nat :=
  let k0 := if 128 < key.length then sha384 key else key
  let kp := k0 ++ List.replicate (128 - k0.length) 0
  sha384 ((kp.map fun b => b ^^^ 92) ++ sha384 ((kp.map fun b => b ^^^ 54) ++ msg))

/-- The raw authentication tag of `src/main.rs` lines 141-145: base64-encode the
shared secret, use the encoded bytes as HMAC key, MAC the agent UUID string. -/
def rawAuthTag (secret uuid : List Nat) : List Nat :=
  hmacSha384 (base64Encode secret) uuid

/-- The `auth_tag` string sent to the registrar (`src/main.rs` lines 141-146):
the raw tag, hex-encoded in lower case. -/
def authTagSent (secret uuid : List Nat) : List Nat :=
  let mackey := base64Encode secret
  let tag := hmacSha384 mackey uuid
  hexEncode tag

/-- Observable status of an asynchronous task: still pending, or terminated
with an `Except` outcome. -/
inductive TaskStatus (ε α : Type) where
  | pending : TaskStatus ε α
  | done : Except ε α → TaskStatus ε α

/-- Semantics of `futures::try_join!` on the statuses of two tasks: it
completes with the first error as soon as either task has failed (dropping,
hence canceling, the other), completes with the pair once both tasks have
succeeded, and otherwise stays pending. -/
def tryJoin {ε α β : Type} : TaskStatus ε α → TaskStatus ε β → TaskStatus ε (α × β)
  | .done (.error e), _ => .done (.error e)
  | _, .done (.error e) => .done (.error e)
  | .done (.ok x), .done (.ok y) => .done (.ok (x, y))
  | _, _ => .pending

/-- The externally visible calls `main` makes, in the order it makes them.
`register` carries the agent UUID sent; `activate` carries the UUID and the
hex-encoded authentication tag sent. -/
inductive Event where
  | getCtx : Event
  | getVendor : Event
  | createEk : Event
  | createAk : Event
  | cfgAgentIp : Event
  | cfgAgentPort : Event
  | cfgRegIp : Event
  | cfgRegPort : Event
  | cfgUuid : Event
  | register : List Nat → Event
  | activateCred : Event
  | sign : Event
  | activate : List Nat → List Nat → Event
  | bind : Event
  | run : Event
deriving DecidableEq, Repr

/-- Outcomes of every fallible call `main` performs, plus the random bytes
drawn for UUID generation and the runtime statuses of the two launched tasks.
Error values are abstracted as `Nat`. -/
structure MainEnv where
  ctxRes : Except Nat Unit
  vendorRes : Except Nat (List Nat)
  ekRes : Except Nat Unit
  akRes : Except Nat Unit
  cfgAgentIpRes : Except Nat (List Nat)
  cfgAgentPortRes : Except Nat (List Nat)
  cfgRegIpRes : Except Nat (List Nat)
  cfgRegPortRes : Except Nat (List Nat)
  cfgUuidRes : Except Nat (List Nat)
  rand : UuidBytes
  registerRes : Except Nat (List Nat)
  activateCredRes : Except Nat (List Nat)
  signRes : Except Nat Unit
  activateAgentRes : Except Nat Unit
  bindRes : Except Nat Unit
  serverTask : TaskStatus Nat Unit
  revocationTask : TaskStatus Nat Unit

/-- Value of an `Except`, with a default for the error case. -/
def okOr {ε α : Type} (d : α) : Except ε α → α
  | .ok a => a
  | .error _ => d

/-- The configured `agent_uuid` string (empty if reading it failed). -/
def cfgUuidVal (env : MainEnv) : List Nat := okOr [] env.cfgUuidRes

/-- The resolved agent UUID of a run. -/
def agentUuid (env : MainEnv) : List Nat := getUuid (cfgUuidVal env) env.rand

/-- The shared secret recovered by credential activation (empty if it failed). -/
def sharedSecret (env : MainEnv) : List Nat := okOr [] env.activateCredRes

/-- Result of awaiting `try_join!(actix_server, revocation)`: an error
terminates `main` with that error via `?`; both tasks succeeding lets `main`
return `Ok(())`; otherwise the process keeps running (`none`). -/
def joinResult (env : MainEnv) : Option (Except Nat Unit) :=
  match tryJoin env.serverTask env.revocationTask with
  | .pending => none
  | .done (.error e) => some (.error e)
  | .done (.ok _) => some (.ok ())

/-- Embedding of the control flow of `main` (`src/main.rs` lines 99-182):
the trace of calls made, and the process outcome (`none` while the joined
services are still running). -/
def mainModel (env : MainEnv) : List Event × Option (Except Nat Unit) :=
  match env.ctxRes with
  | .error e => ([.getCtx], some (.error e))
  | .ok _ =>
  match env.vendorRes with
  | .error e => ([.getCtx, .getVendor], some (.error e))
  | .ok _ =>
  match env.ekRes with
  | .error e => ([.getCtx, .getVendor, .createEk], some (.error e))
  | .ok _ =>
  match env.akRes with
  | .error e => ([.getCtx, .getVendor, .createEk, .createAk], some (.error e))
  | .ok _ =>
  match env.cfgAgentIpRes with
  | .error e => ([.getCtx, .getVendor, .createEk, .createAk, .cfgAgentIp], some (.error e))
  | .ok _ =>
  match env.cfgAgentPortRes with
  | .error e =>
    ([.getCtx, .getVendor, .createEk, .createAk, .cfgAgentIp, .cfgAgentPort], some (.error e))
  | .ok _ =>
  match env.cfgRegIpRes with
  | .error e =>
    ([.getCtx, .getVendor, .createEk, .createAk, .cfgAgentIp, .cfgAgentPort, .cfgRegIp],
     some (.error e))
  | .ok _ =>
  match env.cfgRegPortRes with
  | .error e =>
    ([.getCtx, .getVendor, .createEk, .createAk, .cfgAgentIp, .cfgAgentPort, .cfgRegIp,
      .cfgRegPort], some (.error e))
  | .ok _ =>
  match env.cfgUuidRes with
  | .error e =>
    ([.getCtx, .getVendor, .createEk, .createAk, .cfgAgentIp, .cfgAgentPort, .cfgRegIp,
      .cfgRegPort, .cfgUuid], some (.error e))
  | .ok cfgU =>
  match env.registerRes with
  | .error e =>
    ([.getCtx, .getVendor, .createEk, .createAk, .cfgAgentIp, .cfgAgentPort, .cfgRegIp,
      .cfgRegPort, .cfgUuid, .register (getUuid cfgU env.rand)], some (.error e))
  | .ok _ =>
  match env.activateCredRes with
  | .error e =>
    ([.getCtx, .getVendor, .createEk, .createAk, .cfgAgentIp, .cfgAgentPort, .cfgRegIp,
      .cfgRegPort, .cfgUuid, .register (getUuid cfgU env.rand), .activateCred],
     some (.error e))
  | .ok key =>
  match env.signRes with
  | .error e =>
    ([.getCtx, .getVendor, .createEk, .createAk, .cfgAgentIp, .cfgAgentPort, .cfgRegIp,
      .cfgRegPort, .cfgUuid, .register (getUuid cfgU env.rand), .activateCred, .sign],
     some (.error e))
  | .ok _ =>
  match env.activateAgentRes with
  | .error e =>
    ([.getCtx, .getVendor, .createEk, .createAk, .cfgAgentIp, .cfgAgentPort, .cfgRegIp,
      .cfgRegPort, .cfgUuid, .register (getUuid cfgU env.rand), .activateCred, .sign,
      .activate (getUuid cfgU env.rand) (authTagSent key (getUuid cfgU env.rand))],
     some (.error e))
  | .ok _ =>
  match env.bindRes with
  | .error e =>
    ([.getCtx, .getVendor, .createEk, .createAk, .cfgAgentIp, .cfgAgentPort, .cfgRegIp,
      .cfgRegPort, .cfgUuid, .register (getUuid cfgU env.rand), .activateCred, .sign,
      .activate (getUuid cfgU env.rand) (authTagSent key (getUuid cfgU env.rand)), .bind],
     some (.error e))
  | .ok _ =>
    ([.getCtx, .getVendor, .createEk, .createAk, .cfgAgentIp, .cfgAgentPort, .cfgRegIp,
      .cfgRegPort, .cfgUuid, .register (getUuid cfgU env.rand), .activateCred, .sign,
      .activate (getUuid cfgU env.rand) (authTagSent key (getUuid cfgU env.rand)), .bind,
      .run],
     joinResult env)

/-- The full call trace of a run in which every bootstrap step succeeds. -/
def fullTrace (env : MainEnv) : List Event :=
  [.getCtx, .getVendor, .createEk, .createAk, .cfgAgentIp, .cfgAgentPort, .cfgRegIp,
   .cfgRegPort, .cfgUuid, .register (agentUuid env), .activateCred, .sign,
   .activate (agentUuid env) (authTagSent (sharedSecret env) (agentUuid env)), .bind, .run]

/-- A concrete environment in which every bootstrap step succeeds and both
services are still running. -/
def envAllOk : MainEnv :=
  ⟨Except.ok (), Except.ok [], Except.ok (), Except.ok (), Except.ok [], Except.ok [],
   Except.ok [], Except.ok [], Except.ok (strBytes "openstack"),
   ⟨0, 0, 0, 0, 0, 0, 0, 0, 0, 0, 0, 0, 0, 0, 0, 0⟩,
   Except.ok [], Except.ok [], Except.ok (), Except.ok (), Except.ok (),
   TaskStatus.pending, TaskStatus.pending⟩

/-- A concrete choice of sixteen random bytes. -/
def randW : UuidBytes := ⟨0, 1, 2, 3, 4, 5, 6, 7, 8, 9, 10, 11, 12, 13, 14, 15⟩

/-- A second, different concrete choice of sixteen random bytes. -/
def randW2 : UuidBytes := ⟨255, 254, 253, 7, 99, 1, 33, 21, 8, 77, 13, 100, 0, 5, 2, 250⟩

theorem hexValCore_lt {n v : Nat} (h : hexValCore n = some v) : v < 16 := by
  unfold hexValCore at h
  split at h
  · injection h with hv; omega
  · split at h
    · injection h with hv; omega
    · exact absurd h (by simp)

theorem hexVal_lt {n v : Nat} (h : hexVal n = some v) : v < 16 :=
  hexValCore_lt h

theorem hexVal_hexDigit : ∀ n, n < 16 → hexVal (hexDigit n) = some n := by decide

theorem readHexBytes_hexEncode : ∀ (bs rest : List Nat), (∀ b ∈ bs, b < 256) →
    readHexBytes bs.length (hexEncode bs ++ rest) = some (bs, rest) := by
  intro bs
  induction bs with
  | nil => intro rest h; simp [hexEncode, readHexBytes]
  | cons b bs ih =>
    intro rest h
    have hb : b < 256 := h b (by simp)
    have h1 := hexVal_hexDigit (b / 16) (by omega)
    have h2 := hexVal_hexDigit (b % 16) (by omega)
    have h3 := ih rest fun x hx => h x (by simp [hx])
    simp [hexEncode, readHexBytes, h1, h2, h3, Nat.div_add_mod]

theorem uuidToString_length (u : UuidBytes) : (uuidToString u).length = 36 := by
  simp [uuidToString, byteHex]

theorem expectHyphen_cons (r : List Nat) : expectHyphen (45 :: r) = some r := by
  simp [expectHyphen]

theorem expectHyphen_eq_some {l r : List Nat} (h : expectHyphen l = some r) : l = 45 :: r := by
  match l with
  | [] => exact Option.noConfusion h
  | c :: l2 =>
    simp only [expectHyphen] at h
    split at h
    · next hc =>
      injection h with h2
      rw [hc, h2]
    · exact Option.noConfusion h

theorem expectEnd_eq_some {l : List Nat} {w : Unit} (h : expectEnd l = some w) : l = [] := by
  match l with
  | [] => rfl
  | c :: l2 => exact Option.noConfusion h

theorem expectEnd_nil : expectEnd [] = some () := rfl

theorem mkUuid_sixteen (a0 a1 a2 a3 a4 a5 a6 a7 a8 a9 a10 a11 a12 a13 a14 a15 : Nat) :
    mkUuid [a0, a1, a2, a3, a4, a5, a6, a7, a8, a9, a10, a11, a12, a13, a14, a15] =
      some ⟨a0, a1, a2, a3, a4, a5, a6, a7, a8, a9, a10, a11, a12, a13, a14, a15⟩ := rfl

theorem parseHyphenated_toString {u : UuidBytes} (h : ValidBytes u) :
    parseHyphenated (uuidToString u) = some u := by
  obtain ⟨b0, b1, b2, b3, b4, b5, b6, b7, b8, b9, b10, b11, b12, b13, b14, b15⟩ := u
  obtain ⟨h0, h1, h2, h3, h4, h5, h6, h7, h8, h9, h10, h11, h12, h13, h14, h15⟩ := h
  have g0 : ∀ rest, readHexBytes 4 (hexEncode [b0, b1, b2, b3] ++ rest) =
      some ([b0, b1, b2, b3], rest) := by
    intro rest
    have hh := readHexBytes_hexEncode [b0, b1, b2, b3] rest (by
      intro x hx; simp at hx; rcases hx with rfl | rfl | rfl | rfl <;> assumption)
    simpa using hh
  have g1 : ∀ rest, readHexBytes 2 (hexEncode [b4, b5] ++ rest) =
      some ([b4, b5], rest) := by
    intro rest
    have hh := readHexBytes_hexEncode [b4, b5] rest (by
      intro x hx; simp at hx; rcases hx with rfl | rfl <;> assumption)
    simpa using hh
  have g2 : ∀ rest, readHexBytes 2 (hexEncode [b6, b7] ++ rest) =
      some ([b6, b7], rest) := by
    intro rest
    have hh := readHexBytes_hexEncode [b6, b7] rest (by
      intro x hx; simp at hx; rcases hx with rfl | rfl <;> assumption)
    simpa using hh
  have g3 : ∀ rest, readHexBytes 2 (hexEncode [b8, b9] ++ rest) =
      some ([b8, b9], rest) := by
    intro rest
    have hh := readHexBytes_hexEncode [b8, b9] rest (by
      intro x hx; simp at hx; rcases hx with rfl | rfl <;> assumption)
    simpa using hh
  have g4 : ∀ rest, readHexBytes 6 (hexEncode [b10, b11, b12, b13, b14, b15] ++ rest) =
      some ([b10, b11, b12, b13, b14, b15], rest) := by
    intro rest
    have hh := readHexBytes_hexEncode [b10, b11, b12, b13, b14, b15] rest (by
      intro x hx; simp at hx; rcases hx with rfl | rfl | rfl | rfl | rfl | rfl <;> assumption)
    simpa using hh
  have hrepr : uuidToString
      ⟨b0, b1, b2, b3, b4, b5, b6, b7, b8, b9, b10, b11, b12, b13, b14, b15⟩ =
      hexEncode [b0, b1, b2, b3] ++ 45 :: (hexEncode [b4, b5] ++ 45 ::
        (hexEncode [b6, b7] ++ 45 :: (hexEncode [b8, b9] ++ 45 ::
          (hexEncode [b10, b11, b12, b13, b14, b15] ++ [])))) := by
    simp [uuidToString, byteHex, hexEncode]
  rw [hrepr]
  simp only [parseHyphenated, g0, g1, g2, g3, g4, Option.some_bind, expectHyphen_cons,
    expectEnd_nil, List.cons_append, List.nil_append, mkUuid_sixteen]

theorem parseUuid_toString {u : UuidBytes} (h : ValidBytes u) :
    parseUuid (uuidToString u) = some u := by
  have hlen : ¬((uuidToString u).length = 45 ∧
      (uuidToString u).take 9 = strBytes "urn:uuid:") := by
    rintro ⟨hl, -⟩
    rw [uuidToString_length] at hl
    omega
  simp [parseUuid, hlen, parseHyphenated_toString h]

theorem readHexBytes_bytes_lt :
    ∀ (k : Nat) (l bs r : List Nat), readHexBytes k l = some (bs, r) → ∀ b ∈ bs, b < 256 := by
  intro k
  induction k with
  | zero =>
    intro l bs r h b hb
    simp [readHexBytes] at h
    rw [h.1] at hb
    simp at hb
  | succ n ih =>
    intro l bs r h b hb
    match l with
    | [] => simp [readHexBytes] at h
    | [c] => simp [readHexBytes] at h
    | c1 :: c2 :: rest =>
      simp only [readHexBytes, Option.bind_eq_some, Option.map_eq_some'] at h
      obtain ⟨hi, hv1, lo, hv2, p, hp, hpe⟩ := h
      have hhi := hexVal_lt hv1
      have hlo := hexVal_lt hv2
      cases hpe
      rcases List.mem_cons.mp hb with hb1 | hb2
      · omega
      · exact ih rest p.1 p.2 hp b hb2

theorem mkUuid_valid {bs : List Nat} {u : UuidBytes} (h : mkUuid bs = some u)
    (hlt : ∀ b ∈ bs, b < 256) : ValidBytes u := by
  unfold mkUuid at h
  split at h
  · injection h with h
    subst h
    exact ⟨hlt _ (by simp), hlt _ (by simp), hlt _ (by simp), hlt _ (by simp),
      hlt _ (by simp), hlt _ (by simp), hlt _ (by simp), hlt _ (by simp),
      hlt _ (by simp), hlt _ (by simp), hlt _ (by simp), hlt _ (by simp),
      hlt _ (by simp), hlt _ (by simp), hlt _ (by simp), hlt _ (by simp)⟩
  · cases h

theorem parseHyphenated_valid {l : List Nat} {u : UuidBytes}
    (h : parseHyphenated l = some u) : ValidBytes u := by
  simp only [parseHyphenated, Option.bind_eq_some] at h
  obtain ⟨p0, hg0, r0, hh0, p1, hg1, r1, hh1, p2, hg2, r2, hh2, p3, hg3, r3, hh3,
    p4, hg4, w, hend, hmk⟩ := h
  refine mkUuid_valid hmk ?_
  intro b hb
  simp only [List.mem_append] at hb
  rcases hb with ((((hb | hb) | hb) | hb) | hb)
  · exact readHexBytes_bytes_lt 4 l p0.1 p0.2 hg0 b hb
  · exact readHexBytes_bytes_lt 2 r0 p1.1 p1.2 hg1 b hb
  · exact readHexBytes_bytes_lt 2 r1 p2.1 p2.2 hg2 b hb
  · exact readHexBytes_bytes_lt 2 r2 p3.1 p3.2 hg3 b hb
  · exact readHexBytes_bytes_lt 6 r3 p4.1 p4.2 hg4 b hb

theorem parseSimple_valid {l : List Nat} {u : UuidBytes}
    (h : parseSimple l = some u) : ValidBytes u := by
  simp only [parseSimple, Option.bind_eq_some] at h
  obtain ⟨p, hg, w, hend, hmk⟩ := h
  exact mkUuid_valid hmk fun b hb => readHexBytes_bytes_lt 16 l p.1 p.2 hg b hb

theorem parseUuid_valid {l : List Nat} {u : UuidBytes}
    (h : parseUuid l = some u) : ValidBytes u := by
  unfold parseUuid at h
  split at h
  · exact parseHyphenated_valid h
  · split at h
    next u2 heq =>
      injection h with h
      exact h ▸ parseHyphenated_valid heq
    next heq => exact parseSimple_valid h

theorem readHexBytes_ci : ∀ (k : Nat) {s t bs t2 : List Nat},
    s.map asciiLower = t.map asciiLower →
    readHexBytes k t = some (bs, t2) →
    ∃ s2, readHexBytes k s = some (bs, s2) ∧ s2.map asciiLower = t2.map asciiLower := by
  intro k
  induction k with
  | zero =>
    intro s t bs t2 hm h
    simp only [readHexBytes, Option.some.injEq, Prod.mk.injEq] at h
    obtain ⟨h1, h2⟩ := h
    subst h1
    subst h2
    exact ⟨s, rfl, hm⟩
  | succ n ih =>
    intro s t bs t2 hm h
    match t with
    | [] => simp [readHexBytes] at h
    | [d] => simp [readHexBytes] at h
    | d1 :: d2 :: tr =>
      match s with
      | [] => simp at hm
      | [c] => simp at hm
      | c1 :: c2 :: sr =>
        simp only [List.map_cons, List.cons.injEq] at hm
        obtain ⟨e1, e2, e3⟩ := hm
        simp only [readHexBytes, Option.bind_eq_some, Option.map_eq_some'] at h
        obtain ⟨hi, hv1, lo, hv2, p, hp, hpe⟩ := h
        cases hpe
        obtain ⟨s2, hs2, hm2⟩ := ih e3 hp
        have hv3 : hexVal c1 = some hi := by
          unfold hexVal
          rw [e1]
          exact hv1
        have hv4 : hexVal c2 = some lo := by
          unfold hexVal
          rw [e2]
          exact hv2
        refine ⟨s2, ?_, hm2⟩
        simp [readHexBytes, hv3, hv4, hs2]

theorem asciiLower_45 : asciiLower 45 = 45 := by decide

theorem asciiLower_eq_45 {c : Nat} (h : asciiLower c = 45) : c = 45 := by
  unfold asciiLower at h
  split at h <;> omega

theorem map_asciiLower_eq_nil {s : List Nat} (hm : s.map asciiLower = []) : s = [] := by
  cases s with
  | nil => rfl
  | cons c r => simp at hm

theorem expectHyphen_ci {s t t2 : List Nat} (hm : s.map asciiLower = t.map asciiLower)
    (h : expectHyphen t = some t2) :
    ∃ s2, expectHyphen s = some s2 ∧ s2.map asciiLower = t2.map asciiLower := by
  have ht : t = 45 :: t2 := expectHyphen_eq_some h
  subst ht
  match s with
  | [] => simp at hm
  | c :: sr =>
    simp only [List.map_cons, List.cons.injEq, asciiLower_45] at hm
    obtain ⟨e1, e2⟩ := hm
    have hc : c = 45 := asciiLower_eq_45 e1
    exact ⟨sr, by simp [expectHyphen, hc], e2⟩

theorem parseHyphenated_ci {s t : List Nat} {u : UuidBytes}
    (hm : s.map asciiLower = t.map asciiLower)
    (h : parseHyphenated t = some u) : parseHyphenated s = some u := by
  simp only [parseHyphenated, Option.bind_eq_some] at h ⊢
  obtain ⟨p0, hg0, r0, hh0, p1, hg1, r1, hh1, p2, hg2, r2, hh2, p3, hg3, r3, hh3,
    p4, hg4, w, hend, hmk⟩ := h
  obtain ⟨s0, hs0, hm0⟩ := readHexBytes_ci 4 hm hg0
  obtain ⟨sh0, hsh0, hmh0⟩ := expectHyphen_ci hm0 hh0
  obtain ⟨s1, hs1, hm1⟩ := readHexBytes_ci 2 hmh0 hg1
  obtain ⟨sh1, hsh1, hmh1⟩ := expectHyphen_ci hm1 hh1
  obtain ⟨s2, hs2, hm2⟩ := readHexBytes_ci 2 hmh1 hg2
  obtain ⟨sh2, hsh2, hmh2⟩ := expectHyphen_ci hm2 hh2
  obtain ⟨s3, hs3, hm3⟩ := readHexBytes_ci 2 hmh2 hg3
  obtain ⟨sh3, hsh3, hmh3⟩ := expectHyphen_ci hm3 hh3
  obtain ⟨s4, hs4, hm4⟩ := readHexBytes_ci 6 hmh3 hg4
  have hp4 : p4.2 = [] := expectEnd_eq_some hend
  rw [hp4, List.map_nil] at hm4
  have hs4e : s4 = [] := map_asciiLower_eq_nil hm4
  subst hs4e
  exact ⟨(p0.1, s0), hs0, sh0, hsh0, (p1.1, s1), hs1, sh1, hsh1, (p2.1, s2), hs2, sh2, hsh2,
    (p3.1, s3), hs3, sh3, hsh3, (p4.1, []), hs4, (), rfl, hmk⟩

theorem eqCI_length {s t : List Nat} (h : eqCaseInsensitive s t) : s.length = t.length := by
  unfold eqCaseInsensitive at h
  have h2 := congrArg List.length h
  simpa using h2

theorem parseUuid_of_eqCI_toString {cfg : List Nat} {u : UuidBytes} (hv : ValidBytes u)
    (hci : eqCaseInsensitive cfg (uuidToString u)) : parseUuid cfg = some u := by
  have hp : parseHyphenated cfg = some u := parseHyphenated_ci hci (parseHyphenated_toString hv)
  have hlen : cfg.length = 36 := by rw [eqCI_length hci, uuidToString_length]
  have hne : ¬(cfg.length = 45 ∧ cfg.take 9 = strBytes "urn:uuid:") := by
    rintro ⟨hl, -⟩
    omega
  simp [parseUuid, hne, hp]

theorem parseUuid_none_not_eqCI {cfg : List Nat} {u : UuidBytes} (hv : ValidBytes u)
    (hn : parseUuid cfg = none) : ¬eqCaseInsensitive cfg (uuidToString u) := by
  intro hci
  rw [parseUuid_of_eqCI_toString hv hci] at hn
  exact Option.noConfusion hn

theorem parseUuid_openstack : parseUuid (strBytes "openstack") = none := by decide

theorem parseUuid_hashEk : parseUuid (strBytes "hash_ek") = none := by decide

theorem parseUuid_generate : parseUuid (strBytes "generate") = none := by decide

theorem getUuid_of_parse (rand : UuidBytes) {cfg : List Nat} {u : UuidBytes}
    (h : parseUuid cfg = some u) : getUuid cfg rand = uuidToString u := by
  have h1 : cfg ≠ strBytes "openstack" := by
    rintro rfl
    rw [parseUuid_openstack] at h
    exact Option.noConfusion h
  have h2 : cfg ≠ strBytes "hash_ek" := by
    rintro rfl
    rw [parseUuid_hashEk] at h
    exact Option.noConfusion h
  have h3 : cfg ≠ strBytes "generate" := by
    rintro rfl
    rw [parseUuid_generate] at h
    exact Option.noConfusion h
  simp [getUuid, h1, h2, h3, h]

theorem getUuid_fallback (rand : UuidBytes) {cfg : List Nat}
    (h1 : cfg ≠ strBytes "openstack") (h2 : cfg ≠ strBytes "hash_ek")
    (h3 : cfg ≠ strBytes "generate") (h : parseUuid cfg = none) :
    getUuid cfg rand = uuidToString (uuidV4 rand) := by
  simp [getUuid, h1, h2, h3, h]

theorem uuidV4_valid {r : UuidBytes} (h : ValidBytes r) : ValidBytes (uuidV4 r) := by
  obtain ⟨a0, a1, a2, a3, a4, a5, a6, a7, a8, a9, a10, a11, a12, a13, a14, a15⟩ := r
  simp only [ValidBytes, uuidV4] at h ⊢
  omega

theorem uuidV4_version (r : UuidBytes) : (uuidV4 r).b6 / 16 = 4 ∧ (uuidV4 r).b8 / 64 = 2 := by
  obtain ⟨a0, a1, a2, a3, a4, a5, a6, a7, a8, a9, a10, a11, a12, a13, a14, a15⟩ := r
  simp only [uuidV4]
  omega

theorem uuidToString_ne_nil (u : UuidBytes) : uuidToString u ≠ [] := by
  intro h
  have h2 := uuidToString_length u
  rw [h] at h2
  simp at h2

theorem natToBytesBE_length : ∀ (k n : Nat), (natToBytesBE k n).length = k := by
  intro k
  induction k with
  | zero => intro n; rfl
  | succ m ih => intro n; simp [natToBytesBE, ih]

theorem natToBytesBE_lt : ∀ (k n : Nat), ∀ b ∈ natToBytesBE k n, b < 256 := by
  intro k
  induction k with
  | zero => intro n b hb; simp [natToBytesBE] at hb
  | succ m ih =>
    intro n b hb
    simp only [natToBytesBE, List.mem_append, List.mem_singleton] at hb
    rcases hb with hb | hbe
    · exact ih _ b hb
    · omega

theorem sha384_length (msg : List Nat) : (sha384 msg).length = 48 := by
  simp [sha384, natToBytesBE_length]

theorem sha384_lt (msg : List Nat) : ∀ b ∈ sha384 msg, b < 256 := by
  intro b hb
  simp only [sha384, List.mem_append] at hb
  rcases hb with ((((hb | hb) | hb) | hb) | hb) | hb <;> exact natToBytesBE_lt 8 _ b hb

theorem hmacSha384_length (key msg : List Nat) : (hmacSha384 key msg).length = 48 := by
  simp [hmacSha384, sha384_length]

theorem hmacSha384_lt (key msg : List Nat) : ∀ b ∈ hmacSha384 key msg, b < 256 := by
  intro b hb
  simp only [hmacSha384] at hb
  exact sha384_lt _ b hb

theorem hexEncode_length : ∀ (l : List Nat), (hexEncode l).length = 2 * l.length := by
  intro l
  induction l with
  | nil => rfl
  | cons b r ih =>
    simp only [hexEncode, List.length_cons]
    omega

theorem hexValCore_hexDigit_isSome : ∀ n, n < 16 → (hexValCore (hexDigit n)).isSome = true := by
  decide

theorem hexEncode_lowerHex : ∀ (l : List Nat), (∀ b ∈ l, b < 256) →
    ∀ c ∈ hexEncode l, (hexValCore c).isSome = true := by
  intro l
  induction l with
  | nil => intro h c hc; simp [hexEncode] at hc
  | cons b r ih =>
    intro h c hc
    have hb : b < 256 := h b (by simp)
    simp only [hexEncode, List.mem_cons] at hc
    rcases hc with rfl | rfl | hc
    · exact hexValCore_hexDigit_isSome _ (by omega)
    · exact hexValCore_hexDigit_isSome _ (by omega)
    · exact ih (fun x hx => h x (by simp [hx])) c hc

theorem authTagSent_eq (s u : List Nat) : authTagSent s u = hexEncode (rawAuthTag s u) := rfl

theorem rawAuthTag_eq (s u : List Nat) : rawAuthTag s u = hmacSha384 (base64Encode s) u := rfl

theorem run_mem_result {env : MainEnv} (h : Event.run ∈ (mainModel env).1) :
    (mainModel env).2 = joinResult env := by
  obtain ⟨ctx, vnd, ek, ak, ca, cb, cc, cd, ce, rnd, rg, ac, sg, aa, bn, st, rt⟩ := env
  rcases ctx with e | a1
  · simp [mainModel] at h
  rcases vnd with e | a2
  · simp [mainModel] at h
  rcases ek with e | a3
  · simp [mainModel] at h
  rcases ak with e | a4
  · simp [mainModel] at h
  rcases ca with e | a5
  · simp [mainModel] at h
  rcases cb with e | a6
  · simp [mainModel] at h
  rcases cc with e | a7
  · simp [mainModel] at h
  rcases cd with e | a8
  · simp [mainModel] at h
  rcases ce with e | a9
  · simp [mainModel] at h
  rcases rg with e | a10
  · simp [mainModel] at h
  rcases ac with e | a11
  · simp [mainModel] at h
  rcases sg with e | a12
  · simp [mainModel] at h
  rcases aa with e | a13
  · simp [mainModel] at h
  rcases bn with e | a14
  · simp [mainModel] at h
  simp [mainModel]

theorem getUuid_ne_nil (cfg : List Nat) (rand : UuidBytes) : getUuid cfg rand ≠ [] := by
  unfold getUuid
  split
  · decide
  · split
    · decide
    · split
      · exact uuidToString_ne_nil _
      · split
        · exact uuidToString_ne_nil _
        · exact uuidToString_ne_nil _

/-- Claim C1 counterexample: in a run whose bootstrap fully succeeded, the
Evidence Service task has terminated (successfully) while the Revocation
Listener is still pending, yet the process outcome is `none` — `try_join!`
keeps running instead of terminating the process, contradicting the claim
that termination of either task terminates the whole process. -/
theorem tryJoin_one_success_keeps_running :
    (mainModel { envAllOk with serverTask := TaskStatus.done (Except.ok ()) }).2 = none ∧
    ({ envAllOk with serverTask := TaskStatus.done (Except.ok ()) } : MainEnv).serverTask ≠
      TaskStatus.pending ∧
    Event.run ∈ (mainModel { envAllOk with serverTask := TaskStatus.done (Except.ok ()) }).1 := by
  refine ⟨?_, ?_, ?_⟩
  · simp [mainModel, envAllOk, joinResult, tryJoin]
  · simp [envAllOk]
  · simp [mainModel, envAllOk]

/-- Claim C1 (amended): the two services are joined fail-fast with respect to
errors: if either task terminates with an error, the join — and hence the
process — terminates with an error, canceling the other task; both tasks
succeeding is the only way the join succeeds; successful completion of only
one task is never treated as success — the join stays pending. -/
theorem tryJoin_fail_fast :
    (∀ (e : Nat) (b : TaskStatus Nat Unit),
      tryJoin (TaskStatus.done (Except.error e) : TaskStatus Nat Unit) b =
        TaskStatus.done (Except.error e)) ∧
    (∀ (a : TaskStatus Nat Unit) (e : Nat),
      ∃ e2, tryJoin a (TaskStatus.done (Except.error e) : TaskStatus Nat Unit) =
        TaskStatus.done (Except.error e2)) ∧
    (∀ x y : Unit, tryJoin (TaskStatus.done (Except.ok x) : TaskStatus Nat Unit)
      (TaskStatus.done (Except.ok y) : TaskStatus Nat Unit) =
        TaskStatus.done (Except.ok (x, y))) ∧
    tryJoin (TaskStatus.done (Except.ok ()) : TaskStatus Nat Unit)
      (TaskStatus.pending : TaskStatus Nat Unit) = TaskStatus.pending ∧
    tryJoin (TaskStatus.pending : TaskStatus Nat Unit)
      (TaskStatus.done (Except.ok ()) : TaskStatus Nat Unit) = TaskStatus.pending ∧
    (∀ (env : MainEnv) (e : Nat), Event.run ∈ (mainModel env).1 →
      env.serverTask = TaskStatus.done (Except.error e) →
      (mainModel env).2 = some (Except.error e)) ∧
    (∀ (env : MainEnv) (e : Nat), Event.run ∈ (mainModel env).1 →
      env.revocationTask = TaskStatus.done (Except.error e) →
      ∃ e2, (mainModel env).2 = some (Except.error e2)) := by
  refine ⟨?_, ?_, ?_, rfl, rfl, ?_, ?_⟩
  · intro e b
    rcases b with - | r
    · rfl
    · rcases r with r | r <;> rfl
  · intro a e
    rcases a with - | r
    · exact ⟨e, rfl⟩
    · rcases r with r | r
      · exact ⟨r, rfl⟩
      · exact ⟨e, rfl⟩
  · intro x y
    rfl
  · intro env e hrun hst
    rw [run_mem_result hrun]
    rcases hrt : env.revocationTask with - | r
    · simp [joinResult, hst, hrt, tryJoin]
    · rcases r with r | r <;> simp [joinResult, hst, hrt, tryJoin]
  · intro env e hrun hrt
    rw [run_mem_result hrun]
    rcases hst : env.serverTask with - | r
    · exact ⟨e, by simp [joinResult, hst, hrt, tryJoin]⟩
    · rcases r with r | r
      · exact ⟨r, by simp [joinResult, hst, hrt, tryJoin]⟩
      · exact ⟨e, by simp [joinResult, hst, hrt, tryJoin]⟩

/-- Claim C1 (amended) witness: with every bootstrap step succeeded and the
Evidence Service task failed with error `3`, the process terminates with
error `3`. -/
theorem tryJoin_fail_fast_witness :
    Event.run ∈
      (mainModel { envAllOk with serverTask := TaskStatus.done (Except.error 3) }).1 ∧
    (mainModel { envAllOk with serverTask := TaskStatus.done (Except.error 3) }).2 =
      some (Except.error 3) :=
  ⟨by simp [mainModel, envAllOk],
   tryJoin_fail_fast.2.2.2.2.2.1 _ 3 (by simp [mainModel, envAllOk]) (by simp [envAllOk])⟩

/-- Claim C4: the bootstrap sequence is strictly ordered — the trace of calls
`main` makes is always a prefix of the canonical order (TPM context, vendor
check, EK creation, AK creation, the five config reads, register, credential
activation, tag signing, activate, server bind, run); the server is bound
only after `do_activate_agent` succeeded (which itself requires register and
credential activation to have succeeded), and the services only run after a
successful bind. -/
theorem bootstrap_strictly_ordered (env : MainEnv) :
    (mainModel env).1 <+: fullTrace env ∧
    (Event.bind ∈ (mainModel env).1 →
      env.activateAgentRes = Except.ok () ∧
      (∃ kb, env.registerRes = Except.ok kb) ∧
      (∃ key, env.activateCredRes = Except.ok key)) ∧
    (Event.run ∈ (mainModel env).1 → env.bindRes = Except.ok ()) := by
  obtain ⟨ctx, vnd, ek, ak, ca, cb, cc, cd, ce, rnd, rg, ac, sg, aa, bn, st, rt⟩ := env
  rcases ctx with e | ⟨⟩
  · simp [mainModel, fullTrace, List.cons_prefix_cons, List.nil_prefix]
  rcases vnd with e | v
  · simp [mainModel, fullTrace, List.cons_prefix_cons, List.nil_prefix]
  rcases ek with e | ⟨⟩
  · simp [mainModel, fullTrace, List.cons_prefix_cons, List.nil_prefix]
  rcases ak with e | ⟨⟩
  · simp [mainModel, fullTrace, List.cons_prefix_cons, List.nil_prefix]
  rcases ca with e | v1
  · simp [mainModel, fullTrace, List.cons_prefix_cons, List.nil_prefix]
  rcases cb with e | v2
  · simp [mainModel, fullTrace, List.cons_prefix_cons, List.nil_prefix]
  rcases cc with e | v3
  · simp [mainModel, fullTrace, List.cons_prefix_cons, List.nil_prefix]
  rcases cd with e | v4
  · simp [mainModel, fullTrace, List.cons_prefix_cons, List.nil_prefix]
  rcases ce with e | cfgU
  · simp [mainModel, fullTrace, List.cons_prefix_cons, List.nil_prefix]
  rcases rg with e | kb
  · simp [mainModel, fullTrace, agentUuid, cfgUuidVal, okOr,
      List.cons_prefix_cons, List.nil_prefix]
  rcases ac with e | key
  · simp [mainModel, fullTrace, agentUuid, cfgUuidVal, okOr,
      List.cons_prefix_cons, List.nil_prefix]
  rcases sg with e | ⟨⟩
  · simp [mainModel, fullTrace, agentUuid, cfgUuidVal, sharedSecret, okOr,
      List.cons_prefix_cons, List.nil_prefix]
  rcases aa with e | ⟨⟩
  · simp [mainModel, fullTrace, agentUuid, cfgUuidVal, sharedSecret, okOr,
      List.cons_prefix_cons, List.nil_prefix]
  rcases bn with e | ⟨⟩
  · simp [mainModel, fullTrace, agentUuid, cfgUuidVal, sharedSecret, okOr,
      List.cons_prefix_cons, List.nil_prefix]
  simp [mainModel, fullTrace, agentUuid, cfgUuidVal, sharedSecret, okOr,
    List.cons_prefix_cons, List.nil_prefix]

/-- Claim C4 witness: in the all-success environment the services run, the
bind result succeeded, and the trace is a prefix of the canonical order. -/
theorem bootstrap_strictly_ordered_witness :
    (mainModel envAllOk).1 <+: fullTrace envAllOk ∧
    envAllOk.activateAgentRes = Except.ok () ∧
    envAllOk.bindRes = Except.ok () :=
  ⟨(bootstrap_strictly_ordered envAllOk).1,
   ((bootstrap_strictly_ordered envAllOk).2.1 (by simp [mainModel, envAllOk])).1,
   (bootstrap_strictly_ordered envAllOk).2.2 (by simp [mainModel, envAllOk])⟩

/-- Claim C2 counterexample: what is passed to `do_activate_agent` is not the
raw 48-byte MAC itself — the hex-encoded string differs from the raw tag (it
is twice as long). -/
theorem authTag_sent_not_raw :
    authTagSent (List.range 32) (strBytes "d432fbb3-d2f1-4a97-9ef7-75bd81c00000") ≠
      rawAuthTag (List.range 32) (strBytes "d432fbb3-d2f1-4a97-9ef7-75bd81c00000") := by
  intro h
  have h1 := congrArg List.length h
  rw [authTagSent_eq, hexEncode_length, rawAuthTag_eq, hmacSha384_length] at h1
  omega

/-- Claim C2 (amended): the raw AuthenticationTag is HMAC-SHA384 (48-byte
digest) keyed with the bytes of the base64 encoding of the SharedSecret over
the bytes of the AgentIdentifier, and what is sent to the Registrar in the
activate call is the lower-case hex encoding of this tag (96 bytes). -/
theorem authTag_algorithm (s u : List Nat) :
    rawAuthTag s u = hmacSha384 (base64Encode s) u ∧
    (rawAuthTag s u).length = 48 ∧
    authTagSent s u = hexEncode (rawAuthTag s u) ∧
    (authTagSent s u).length = 96 := by
  refine ⟨rfl, hmacSha384_length _ _, rfl, ?_⟩
  rw [authTagSent_eq, hexEncode_length, rawAuthTag_eq, hmacSha384_length]

/-- Claim C5: a configured string that is none of the three literal policies
and parses as a UUID resolves to its canonical lower-case rendering; in
particular the upper-case example from the repository's own test
canonicalizes to lower case for every random seed. -/
theorem getUuid_canonicalizes (cfg : List Nat) (rand : UuidBytes) (u : UuidBytes)
    (h1 : cfg ≠ strBytes "openstack") (h2 : cfg ≠ strBytes "hash_ek")
    (h3 : cfg ≠ strBytes "generate") (h : parseUuid cfg = some u) :
    getUuid cfg rand = uuidToString u ∧
    ∀ r2 : UuidBytes, getUuid (strBytes "D432FBB3-D2F1-4A97-9EF7-75BD81C00000") r2 =
      strBytes "d432fbb3-d2f1-4a97-9ef7-75bd81c00000" := by
  constructor
  · simp [getUuid, h1, h2, h3, h]
  · intro r2
    have hp : parseUuid (strBytes "D432FBB3-D2F1-4A97-9EF7-75BD81C00000") =
        some ⟨0xd4, 0x32, 0xfb, 0xb3, 0xd2, 0xf1, 0x4a, 0x97, 0x9e, 0xf7, 0x75, 0xbd,
          0x81, 0xc0, 0, 0⟩ := by decide
    rw [getUuid_of_parse r2 hp]
    decide

/-- Claim C5 witness: concrete evaluation on the repository's test vector. -/
theorem getUuid_canonicalizes_witness :
    parseUuid (strBytes "D432FBB3-D2F1-4A97-9EF7-75BD81C00000") =
      some ⟨0xd4, 0x32, 0xfb, 0xb3, 0xd2, 0xf1, 0x4a, 0x97, 0x9e, 0xf7, 0x75, 0xbd,
        0x81, 0xc0, 0, 0⟩ ∧
    getUuid (strBytes "D432FBB3-D2F1-4A97-9EF7-75BD81C00000") randW =
      strBytes "d432fbb3-d2f1-4a97-9ef7-75bd81c00000" :=
  ⟨by decide,
   ((getUuid_canonicalizes (strBytes "D432FBB3-D2F1-4A97-9EF7-75BD81C00000") randW
      ⟨0xd4, 0x32, 0xfb, 0xb3, 0xd2, 0xf1, 0x4a, 0x97, 0x9e, 0xf7, 0x75, 0xbd, 0x81, 0xc0, 0, 0⟩
      (by decide) (by decide) (by decide) (by decide)).1).trans (by decide)⟩

/-- Claim C6: a configured string that is none of the three literals and does
not parse as a UUID makes `get_uuid` fall back to a freshly generated
version-4 identifier, which parses as a valid UUID and is never equal
(ASCII-case-insensitively) to the malformed input. -/
theorem getUuid_fallback_fresh (cfg : List Nat) (rand : UuidBytes)
    (h1 : cfg ≠ strBytes "openstack") (h2 : cfg ≠ strBytes "hash_ek")
    (h3 : cfg ≠ strBytes "generate") (hn : parseUuid cfg = none)
    (hv : ValidBytes rand) :
    getUuid cfg rand = uuidToString (uuidV4 rand) ∧
    parseUuid (getUuid cfg rand) = some (uuidV4 rand) ∧
    ¬eqCaseInsensitive cfg (getUuid cfg rand) := by
  have hg := getUuid_fallback rand h1 h2 h3 hn
  have hv4 := uuidV4_valid hv
  refine ⟨hg, ?_, ?_⟩
  · rw [hg]
    exact parseUuid_toString hv4
  · rw [hg]
    exact parseUuid_none_not_eqCI hv4 hn

/-- Claim C6 witness: concrete evaluation on the repository's malformed test
vector. -/
theorem getUuid_fallback_fresh_witness :
    parseUuid (strBytes "D432FBB3-D2F1-4A97-9EF7-75BD81C0000X") = none ∧
    parseUuid (getUuid (strBytes "D432FBB3-D2F1-4A97-9EF7-75BD81C0000X") randW) =
      some (uuidV4 randW) ∧
    ¬eqCaseInsensitive (strBytes "D432FBB3-D2F1-4A97-9EF7-75BD81C0000X")
      (getUuid (strBytes "D432FBB3-D2F1-4A97-9EF7-75BD81C0000X") randW) :=
  ⟨by decide,
   (getUuid_fallback_fresh (strBytes "D432FBB3-D2F1-4A97-9EF7-75BD81C0000X") randW
     (by decide) (by decide) (by decide) (by decide) (by decide)).2.1,
   (getUuid_fallback_fresh (strBytes "D432FBB3-D2F1-4A97-9EF7-75BD81C0000X") randW
     (by decide) (by decide) (by decide) (by decide) (by decide)).2.2⟩

/-- Claim C7: the literal policies map to themselves, independently of the
random bytes, so two calls in the same process agree. -/
theorem getUuid_literal_policies (r1 r2 : UuidBytes) :
    getUuid (strBytes "openstack") r1 = strBytes "openstack" ∧
    getUuid (strBytes "hash_ek") r1 = strBytes "hash_ek" ∧
    getUuid (strBytes "openstack") r1 = getUuid (strBytes "openstack") r2 ∧
    getUuid (strBytes "hash_ek") r1 = getUuid (strBytes "hash_ek") r2 := by
  have hne : strBytes "hash_ek" ≠ strBytes "openstack" := by decide
  exact ⟨by simp [getUuid], by simp [getUuid, hne], by simp [getUuid],
    by simp [getUuid, hne]⟩

/-- Claim C8: `get_uuid` is total and never returns the empty string, and in
the `generate` and fallback cases the result parses as a valid version-4
UUID (version nibble `4`, variant bits `10`). -/
theorem getUuid_total_nonempty (cfg : List Nat) (rand : UuidBytes) (hv : ValidBytes rand) :
    getUuid cfg rand ≠ [] ∧
    ((cfg = strBytes "generate" ∨
      (cfg ≠ strBytes "openstack" ∧ cfg ≠ strBytes "hash_ek" ∧ cfg ≠ strBytes "generate" ∧
        parseUuid cfg = none)) →
      parseUuid (getUuid cfg rand) = some (uuidV4 rand) ∧
      (uuidV4 rand).b6 / 16 = 4 ∧ (uuidV4 rand).b8 / 64 = 2) := by
  constructor
  · exact getUuid_ne_nil cfg rand
  · intro hc
    have hp : parseUuid (uuidToString (uuidV4 rand)) = some (uuidV4 rand) :=
      parseUuid_toString (uuidV4_valid hv)
    rcases hc with rfl | ⟨h1, h2, h3, hn⟩
    · have hno : strBytes "generate" ≠ strBytes "openstack" := by decide
      have hnh : strBytes "generate" ≠ strBytes "hash_ek" := by decide
      have hg : getUuid (strBytes "generate") rand = uuidToString (uuidV4 rand) := by
        simp [getUuid, hno, hnh]
      rw [hg]
      exact ⟨hp, (uuidV4_version rand).1, (uuidV4_version rand).2⟩
    · rw [getUuid_fallback rand h1 h2 h3 hn]
      exact ⟨hp, (uuidV4_version rand).1, (uuidV4_version rand).2⟩

/-- Claim C8 witness: concrete evaluation of the `generate` policy. -/
theorem getUuid_total_nonempty_witness :
    ValidBytes randW ∧
    getUuid (strBytes "generate") randW ≠ [] ∧
    parseUuid (getUuid (strBytes "generate") randW) = some (uuidV4 randW) :=
  ⟨by decide,
   (getUuid_total_nonempty (strBytes "generate") randW (by decide)).1,
   ((getUuid_total_nonempty (strBytes "generate") randW (by decide)).2 (Or.inl rfl)).1⟩

/-- Claim C9: `get_uuid` is stable on parseable inputs — the canonical
rendering it returns parses back to the same UUID, and resolving the result
again (with any random seed) returns it unchanged. -/
theorem getUuid_stable (s : List Nat) (r1 r2 : UuidBytes) (u : UuidBytes)
    (h : parseUuid s = some u) :
    parseUuid (getUuid s r1) = some u ∧
    getUuid (getUuid s r1) r2 = getUuid s r1 := by
  have hv := parseUuid_valid h
  have hg : getUuid s r1 = uuidToString u := getUuid_of_parse r1 h
  have hp : parseUuid (uuidToString u) = some u := parseUuid_toString hv
  constructor
  · rw [hg]
    exact hp
  · rw [hg, getUuid_of_parse r2 hp]

/-- Claim C9 witness: concrete evaluation on the repository's test vector. -/
theorem getUuid_stable_witness :
    parseUuid (strBytes "D432FBB3-D2F1-4A97-9EF7-75BD81C00000") =
      some ⟨0xd4, 0x32, 0xfb, 0xb3, 0xd2, 0xf1, 0x4a, 0x97, 0x9e, 0xf7, 0x75, 0xbd,
        0x81, 0xc0, 0, 0⟩ ∧
    getUuid (getUuid (strBytes "D432FBB3-D2F1-4A97-9EF7-75BD81C00000") randW) randW2 =
      getUuid (strBytes "D432FBB3-D2F1-4A97-9EF7-75BD81C00000") randW :=
  ⟨by decide,
   (getUuid_stable (strBytes "D432FBB3-D2F1-4A97-9EF7-75BD81C00000") randW randW2
     ⟨0xd4, 0x32, 0xfb, 0xb3, 0xd2, 0xf1, 0x4a, 0x97, 0x9e, 0xf7, 0x75, 0xbd, 0x81, 0xc0, 0, 0⟩
     (by decide)).2⟩

/-- Claim C10: what is sent to the Registrar is the lower-case hex encoding
of the 48-byte raw MAC — a 96-byte ASCII string of lower-case hex digits —
and never the raw MAC bytes themselves. -/
theorem authTag_hex_encoded (s u : List Nat) :
    authTagSent s u = hexEncode (rawAuthTag s u) ∧
    authTagSent s u ≠ rawAuthTag s u ∧
    (authTagSent s u).length = 96 ∧
    (∀ c ∈ authTagSent s u, (hexValCore c).isSome = true) := by
  refine ⟨rfl, ?_, ?_, ?_⟩
  · intro h
    have h1 := congrArg List.length h
    rw [authTagSent_eq, hexEncode_length, rawAuthTag_eq, hmacSha384_length] at h1
    omega
  · rw [authTagSent_eq, hexEncode_length, rawAuthTag_eq, hmacSha384_length]
  · intro c hc
    rw [authTagSent_eq] at hc
    exact hexEncode_lowerHex _ (fun b hb => hmacSha384_lt (base64Encode s) u b hb) c hc

/-- Claim C10 witness: concrete instance of the hex-encoding inequality. -/
theorem authTag_hex_encoded_witness : authTagSent [] [] ≠ rawAuthTag [] [] :=
  (authTag_hex_encoded [] []).2.1

end Keylime
